import Mathlib

/-!
Verification of the Student-Performance tabular preprocessing pipeline.

The development shallowly embeds the preprocessing logic of
`DataPreprocessing.ipynb` and of the `sagemaker_preprocessing.py` script
written by the second notebook:

* the column selections and the `ColumnTransformer` built from
  `MinMaxScaler` (numeric columns) and
  `OneHotEncoder(drop='if_binary', handle_unknown='error')` (nominal
  columns) with `remainder='drop'`;
* `train_test_split(X, y, test_size=0.1, random_state=12, shuffle=True)`;
* the batch pipeline that fits on the training partition, transforms both
  partitions, and re-attaches the `G3` target column positionally;
* the served-inference adapters `input_fn`, `predict_fn` and `output_fn`.

Numeric cell values are rationals; fallible steps return `Except String`.
Library calls (pandas, scikit-learn, numpy) are modelled by their documented
behaviour at the granularity the program uses them.
-/

deriving instance DecidableEq for Except

/-- A cell of a raw data frame: either a numeric value or a string. -/
inductive Val where
  | num (q : ℚ)
  | str (s : String)
deriving DecidableEq, Repr

/-- A raw record, keyed by column name (one student row of the CSV data). -/
abbrev Row : Type := List (String × Val)

/-- Error-propagating map over a list, mirroring how each library call in the
pipeline processes a whole column or row set and aborts on the first bad
element. -/
def mapE (f : α → Except String β) : List α → Except String (List β)
  | [] => .ok []
  | a :: l =>
      match f a with
      | .error e => .error e
      | .ok b =>
          match mapE f l with
          | .error e => .error e
          | .ok bs => .ok (b :: bs)

/-- `RAND_STATE = 12` from the constants cell of `DataPreprocessing.ipynb`. -/
def RAND_STATE : Nat := 12

/-- `TEST_SIZE = 0.1` from the constants cell of `DataPreprocessing.ipynb`. -/
def TEST_SIZE : ℚ := 1 / 10

/-- `numeric_cols_to_keep` from the notebook and the sagemaker script. -/
def numeric_cols_to_keep : List String :=
  ["age", "Medu", "traveltime", "studytime", "failures", "goout", "Dalc", "absences"]

/-- `nominal_cols_to_keep` from the notebook and the sagemaker script. -/
def nominal_cols_to_keep : List String :=
  ["address", "Fjob", "guardian", "higher", "internet", "romantic"]

/-- `label_column = 'G3'` from the sagemaker script. -/
def label_column : String := "G3"

/-- `feature_columns_names` from the sagemaker script (the 32 raw feature
columns, without the `G3` target). -/
def feature_columns_names : List String :=
  ["school", "sex", "age", "address", "famsize", "Pstatus", "Medu", "Fedu",
   "Mjob", "Fjob", "reason", "guardian", "traveltime", "studytime",
   "failures", "schoolsup", "famsup", "paid", "activities", "nursery",
   "higher", "internet", "romantic", "famrel", "freetime", "goout", "Dalc",
   "Walc", "health", "absences", "G1", "G2"]

/-- Column minimum as computed by `MinMaxScaler.fit` (`data_min_`). -/
def listMin : List ℚ → ℚ
  | [] => 0
  | [a] => a
  | a :: b :: t => min a (listMin (b :: t))

/-- Column maximum as computed by `MinMaxScaler.fit` (`data_max_`). -/
def listMax : List ℚ → ℚ
  | [] => 0
  | [a] => a
  | a :: b :: t => max a (listMax (b :: t))

/-- `MinMaxScaler.transform` on one value for a column with fitted minimum
`mn` and maximum `mx` (default `feature_range=(0, 1)`): `(v - mn) / (mx - mn)`.
No clamping is performed. -/
def scale (mn mx v : ℚ) : ℚ := (v - mn) / (mx - mn)

/-- Read a numeric cell of a row, failing like pandas/scikit-learn do when the
column is absent or holds a string. -/
def getNum (r : Row) (c : String) : Except String ℚ :=
  match r.lookup c with
  | some (.num q) => .ok q
  | some (.str s) => .error ("could not convert string to float: " ++ s)
  | none => .error ("columns are missing: " ++ c)

/-- Read a string-valued cell of a row. -/
def getStr (r : Row) (c : String) : Except String String :=
  match r.lookup c with
  | some (.str s) => .ok s
  | some (.num _) => .error ("expected a categorical value in column " ++ c)
  | none => .error ("columns are missing: " ++ c)

/-- Lexicographic comparison of character lists by code point, the order
`numpy.unique` sorts strings in. -/
def listLexLe : List Char → List Char → Bool
  | [], _ => true
  | _ :: _, [] => false
  | a :: as, b :: bs =>
      if a.toNat < b.toNat then true
      else if b.toNat < a.toNat then false
      else listLexLe as bs

/-- Lexicographic string order by code point. -/
def strLe (a b : String) : Bool := listLexLe a.data b.data

/-- Insert a string into a `strLe`-sorted list. -/
def insertSorted (s : String) : List String → List String
  | [] => [s]
  | a :: t => if strLe s a then s :: a :: t else a :: insertSorted s t

/-- Sort strings lexicographically (insertion sort). -/
def sortStrings : List String → List String
  | [] => []
  | a :: t => insertSorted a (sortStrings t)

/-- The category list computed by `OneHotEncoder.fit` for one column
(`categories_`): the distinct observed values in sorted order, as produced by
`numpy.unique`. -/
def fitCats (vals : List String) : List String :=
  sortStrings vals.dedup

/-- Number of indicator columns `OneHotEncoder(drop='if_binary')` emits for a
column with `k` fitted categories: `1` when `k = 2`, else `k`. -/
def indicatorWidth (k : Nat) : Nat := if k = 2 then 1 else k

/-- `OneHotEncoder(drop='if_binary', handle_unknown='error')` on one cell: a
category unseen at fit time is a hard error; a binary column collapses to the
single indicator of its second fitted category; otherwise one indicator per
fitted category, in category order. -/
def ohEncode (cats : List String) (v : String) : Except String (List ℚ) :=
  if v ∈ cats then
    if cats.length = 2 then
      .ok [if v = cats.getD 1 "" then (1 : ℚ) else 0]
    else
      .ok (cats.map (fun c => if v = c then (1 : ℚ) else 0))
  else
    .error ("Found unknown categories [" ++ v ++ "] during transform")

/-- The fitted state of the `ColumnTransformer`: per numeric column its fitted
minimum and maximum, per nominal column its fitted category list. This is the
artifact persisted as `model.joblib` in the sagemaker script. -/
structure CTState where
  numeric : List (String × ℚ × ℚ)
  nominal : List (String × List String)
deriving DecidableEq, Repr

/-- Fit the `MinMaxScaler` leg of the `ColumnTransformer` on one numeric
column. -/
def fitColumnNumeric (rows : List Row) (c : String) : Except String (String × ℚ × ℚ) :=
  match mapE (fun r => getNum r c) rows with
  | .error e => .error e
  | .ok vs => .ok (c, listMin vs, listMax vs)

/-- Fit the `OneHotEncoder` leg of the `ColumnTransformer` on one nominal
column. -/
def fitColumnNominal (rows : List Row) (c : String) : Except String (String × List String) :=
  match mapE (fun r => getStr r c) rows with
  | .error e => .error e
  | .ok vs => .ok (c, fitCats vs)

/-- `ColumnTransformer.fit` (`ct` in the notebook, `preprocessor` in the
sagemaker script): min-max state for `numeric_cols_to_keep`, category state
for `nominal_cols_to_keep`; every other column is dropped
(`remainder='drop'`). -/
def fitCT (rows : List Row) : Except String CTState :=
  match mapE (fitColumnNumeric rows) numeric_cols_to_keep with
  | .error e => .error e
  | .ok numeric =>
      match mapE (fitColumnNominal rows) nominal_cols_to_keep with
      | .error e => .error e
      | .ok nominal => .ok ⟨numeric, nominal⟩

/-- Apply the fitted `MinMaxScaler` of one numeric column to a row. -/
def numScaleCell (r : Row) (p : String × ℚ × ℚ) : Except String ℚ :=
  match getNum r p.1 with
  | .error e => .error e
  | .ok q => .ok (scale p.2.1 p.2.2 q)

/-- Apply the fitted `OneHotEncoder` of one nominal column to a row. -/
def nomEncodeCell (r : Row) (p : String × List String) : Except String (List ℚ) :=
  match getStr r p.1 with
  | .error e => .error e
  | .ok s => ohEncode p.2 s

/-- `ColumnTransformer.transform` on one row: scaled numeric columns first, in
configured order, then the one-hot blocks of the nominal columns, in
configured order. -/
def transformRow (st : CTState) (r : Row) : Except String (List ℚ) :=
  match mapE (numScaleCell r) st.numeric with
  | .error e => .error e
  | .ok nums =>
      match mapE (nomEncodeCell r) st.nominal with
      | .error e => .error e
      | .ok noms => .ok (nums ++ noms.flatten)

/-- A concrete student record used to exercise the pipeline. -/
def sampleRow1 : Row :=
  [("age", .num 15), ("Medu", .num 1), ("traveltime", .num 1),
   ("studytime", .num 2), ("failures", .num 0), ("goout", .num 3),
   ("Dalc", .num 1), ("absences", .num 4),
   ("address", .str "U"), ("Fjob", .str "teacher"), ("guardian", .str "mother"),
   ("higher", .str "yes"), ("internet", .str "no"), ("romantic", .str "no")]

/-- A second concrete student record used to exercise the pipeline. -/
def sampleRow2 : Row :=
  [("age", .num 22), ("Medu", .num 4), ("traveltime", .num 3),
   ("studytime", .num 1), ("failures", .num 2), ("goout", .num 5),
   ("Dalc", .num 3), ("absences", .num 10),
   ("address", .str "R"), ("Fjob", .str "services"), ("guardian", .str "father"),
   ("higher", .str "no"), ("internet", .str "yes"), ("romantic", .str "yes")]

/-- The transformer state fitted on the two sample rows. -/
def sampleState : CTState where
  numeric :=
    [("age", 15, 22), ("Medu", 1, 4), ("traveltime", 1, 3), ("studytime", 1, 2),
     ("failures", 0, 2), ("goout", 3, 5), ("Dalc", 1, 3), ("absences", 4, 10)]
  nominal :=
    [("address", ["R", "U"]), ("Fjob", ["services", "teacher"]),
     ("guardian", ["father", "mother"]), ("higher", ["no", "yes"]),
     ("internet", ["no", "yes"]), ("romantic", ["no", "yes"])]

/-- A pandas data frame at the granularity the scripts use it: a list of
column names and the rows' cells, positionally aligned with the names. -/
structure Frame where
  cols : List String
  cells : List (List Val)
deriving DecidableEq, Repr

/-- `input_fn(input_data, content_type)` from `sagemaker_preprocessing.py`,
applied to the frame pandas parsed from the request body. Only `text/csv` is
accepted.  When the parsed width is `len(feature_columns_names) + 1` the
columns are renamed to the feature names plus `G3` (labelled data); when it is
`len(feature_columns_names)` they are renamed to the feature names
(unlabelled); any other width falls through both branches and the frame is
returned unchanged. -/
def input_fn (input : Frame) (content_type : String) : Except String Frame :=
  if content_type = "text/csv" then
    if input.cols.length = feature_columns_names.length + 1 then
      .ok ⟨feature_columns_names ++ [label_column], input.cells⟩
    else if input.cols.length = feature_columns_names.length then
      .ok ⟨feature_columns_names, input.cells⟩
    else
      .ok input
  else
    .error (content_type ++ " not supported by script!")

/-- `model.transform(input_data)` inside `predict_fn`: the fitted
`ColumnTransformer` applied to every row of the frame (columns are selected by
name, everything else dropped). -/
def transformAll (st : CTState) (f : Frame) : Except String (List (List ℚ)) :=
  mapE (fun cr => transformRow st (f.cols.zip cr)) f.cells

/-- `predict_fn(input_data, model)` from `sagemaker_preprocessing.py`:
transform the frame; if the `G3` column is present, re-attach its values as
the first output column (`np.insert(features, 0, input_data[label_column],
axis=1)`), otherwise return the features alone. -/
def predict_fn (input : Frame) (model : CTState) : Except String (List (List ℚ)) :=
  match transformAll model input with
  | .error e => .error e
  | .ok features =>
      if label_column ∈ input.cols then
        match mapE (fun cr => getNum (input.cols.zip cr) label_column) input.cells with
        | .error e => .error e
        | .ok labels => .ok ((labels.zip features).map (fun p => p.1 :: p.2))
      else
        .ok features

/-- A JSON value, used to state the shape of the `application/json`
response. -/
inductive Json where
  | num (q : ℚ)
  | str (s : String)
  | arr (l : List Json)
  | obj (l : List (String × Json))

/-- The body built by `output_fn` for `accept = "application/json"`:
`{"instances": [{"features": row}, ...]}`. -/
def jsonOutput (prediction : List (List ℚ)) : Json :=
  .obj [("instances",
    .arr (prediction.map (fun row => .obj [("features", .arr (row.map .num))])))]

/-- `output_fn(prediction, accept)` from `sagemaker_preprocessing.py`: the
`application/json` encoding wraps the rows as `jsonOutput`; the `text/csv`
encoding renders the same rows as delimited text (`encoders.encode`, kept
structural here); any other accept type raises. -/
def output_fn (prediction : List (List ℚ)) (accept : String) :
    Except String (Json ⊕ List (List ℚ)) :=
  if accept = "application/json" then
    .ok (.inl (jsonOutput prediction))
  else if accept = "text/csv" then
    .ok (.inr prediction)
  else
    .error (accept ++ " accept type is not supported by this script.")

/-- Append a labelled `G3` column to a frame: the column name is appended and
each row gets its label as last cell. Used to compare serving with and
without the label present. -/
def mkLabelled (cols : List String) (cells : List (List Val)) (labels : List Val) : Frame :=
  ⟨cols ++ [label_column], List.zipWith (fun cr v => cr ++ [v]) cells labels⟩

/-- One step of a linear congruential generator (glibc constants), driving the
modelled shuffle. -/
def lcgNext (s : Nat) : Nat := (s * 1103515245 + 12345) % 2147483648

/-- Fisher-Yates shuffle driven by `lcgNext`, with explicit fuel (the fuel is
always instantiated with the list length). -/
def shuffleGo : Nat → Nat → List Nat → List Nat
  | 0, _, l => l
  | fuel + 1, g, l =>
      match l with
      | [] => []
      | a :: t =>
          (a :: t).getD (g % (a :: t).length) 0 ::
            shuffleGo fuel (lcgNext g) ((a :: t).eraseIdx (g % (a :: t).length))

/-- The seeded pseudo-random permutation of `range n` used by
`train_test_split(shuffle=True, random_state=seed)`. numpy's Mersenne-Twister
generator is modelled by an LCG-driven Fisher-Yates shuffle; every property
proved below depends only on the result being a permutation of `range n` that
is a deterministic function of the seed. -/
def shuffledRange (seed n : Nat) : List Nat := shuffleGo n (lcgNext seed) (List.range n)

/-- The test-partition size scikit-learn derives from a fractional
`test_size`: `ceil(test_size * n_samples)`. -/
def nTestOf (t : ℚ) (n : Nat) : Nat := (⌈t * (n : ℚ)⌉).toNat

/-- Select the rows of `X` at the given positions (all positions produced by
the split are in range). -/
def selectIdx (X : List α) (idx : List Nat) : List α :=
  idx.filterMap (fun j => X[j]?)

/-- The index split underlying `train_test_split`: shuffle `range n` with the
given seed (`random_state` if supplied, else the interpreter-global numpy
generator state `ambient`), then the first `nTestOf t n` shuffled positions
are the test partition and the rest the train partition. -/
def train_test_split_idx (randomState : Option Nat) (ambient : Nat) (t : ℚ)
    (n : Nat) : List Nat × List Nat :=
  let perm := shuffledRange (randomState.getD ambient) n
  (perm.drop (nTestOf t n), perm.take (nTestOf t n))

/-- `train_test_split(X, y, test_size=t, random_state=rs, shuffle=True)`:
returns `(X_train, X_test, y_train, y_test)`, selecting `X` and `y` with the
same index split. -/
def train_test_split (X : List α) (y : List β) (t : ℚ) (randomState : Option Nat)
    (ambient : Nat) : List α × List α × List β × List β :=
  let p := train_test_split_idx randomState ambient t X.length
  (selectIdx X p.1, selectIdx X p.2, selectIdx y p.1, selectIdx y p.2)

/-- `df.loc[:, df.columns != 'G3']`: drop the target column from a row. -/
def dropG3 (r : Row) : Row := r.filter (fun p => p.1 != label_column)

/-- `train_df['G3'] = np.array(y_train)`: positional attachment of the label
vector as a last column of the transformed feature matrix. -/
def attachLabels (feats : List (List ℚ)) (labels : List ℚ) : List (List ℚ) :=
  List.zipWith (fun f l => f ++ [l]) feats labels

/-- The batch pipeline of `DataPreprocessing.ipynb`: separate `G3` from the
features, split with `TEST_SIZE` and `RAND_STATE`, fit the transformer on the
training partition only (`ct.fit_transform`), transform both partitions, and
re-attach the shuffled labels positionally to both output tables. -/
def batchPreprocess (ambient : Nat) (students : List Row) :
    Except String (List (List ℚ) × List (List ℚ)) :=
  match mapE (fun r => getNum r label_column) students with
  | .error e => .error e
  | .ok y =>
      match train_test_split (students.map dropG3) y TEST_SIZE
          (some RAND_STATE) ambient with
      | (XTrain, XTest, yTrain, yTest) =>
          match fitCT XTrain with
          | .error e => .error e
          | .ok st =>
              match mapE (transformRow st) XTrain with
              | .error e => .error e
              | .ok trainFeats =>
                  match mapE (transformRow st) XTest with
                  | .error e => .error e
                  | .ok testFeats =>
                      .ok (attachLabels trainFeats yTrain,
                           attachLabels testFeats yTest)

/-- The end-to-end processing of one source student row: transformed features
of its feature part, followed by its own `G3` label. Output row `i` of the
batch tables is exactly this, applied to the source student at shuffled
position `i`. -/
def processedRowOf (st : CTState) (src : Row) : Except String (List ℚ) :=
  match transformRow st (dropG3 src) with
  | .error e => .error e
  | .ok f =>
      match getNum src label_column with
      | .error e => .error e
      | .ok l => .ok (f ++ [l])

/-- The column names of a small served-mode frame (configured columns only,
in the configured order). -/
def sampleCols : List String :=
  ["age", "Medu", "traveltime", "studytime", "failures", "goout", "Dalc",
   "absences", "address", "Fjob", "guardian", "higher", "internet", "romantic"]

/-- Cells of the first sample row, aligned with `sampleCols`. -/
def sampleCells1 : List Val :=
  [.num 15, .num 1, .num 1, .num 2, .num 0, .num 3, .num 1, .num 4,
   .str "U", .str "teacher", .str "mother", .str "yes", .str "no", .str "no"]

/-- Cells of the second sample row, aligned with `sampleCols`. -/
def sampleCells2 : List Val :=
  [.num 22, .num 4, .num 3, .num 1, .num 2, .num 5, .num 3, .num 10,
   .str "R", .str "services", .str "father", .str "no", .str "yes", .str "yes"]

/-- A labelled served-mode frame: the two sample rows with `G3` labels 14
and 9. -/
def sampleLabelledFrame : Frame :=
  ⟨sampleCols ++ [label_column],
   [sampleCells1 ++ [.num 14], sampleCells2 ++ [.num 9]]⟩

/-- A batch-mode source student: sample row 1 with its `G3` label. -/
def sampleStudent1 : Row :=
  [("age", .num 15), ("Medu", .num 1), ("traveltime", .num 1),
   ("studytime", .num 2), ("failures", .num 0), ("goout", .num 3),
   ("Dalc", .num 1), ("absences", .num 4),
   ("address", .str "U"), ("Fjob", .str "teacher"), ("guardian", .str "mother"),
   ("higher", .str "yes"), ("internet", .str "no"), ("romantic", .str "no"),
   ("G3", .num 14)]

/-- A second batch-mode source student (same categories, other numerics). -/
def sampleStudent2 : Row :=
  [("age", .num 22), ("Medu", .num 4), ("traveltime", .num 3),
   ("studytime", .num 1), ("failures", .num 2), ("goout", .num 5),
   ("Dalc", .num 3), ("absences", .num 10),
   ("address", .str "U"), ("Fjob", .str "teacher"), ("guardian", .str "mother"),
   ("higher", .str "yes"), ("internet", .str "no"), ("romantic", .str "no"),
   ("G3", .num 9)]

/-- A third batch-mode source student. -/
def sampleStudent3 : Row :=
  [("age", .num 18), ("Medu", .num 2), ("traveltime", .num 2),
   ("studytime", .num 4), ("failures", .num 1), ("goout", .num 4),
   ("Dalc", .num 2), ("absences", .num 6),
   ("address", .str "U"), ("Fjob", .str "teacher"), ("guardian", .str "mother"),
   ("higher", .str "yes"), ("internet", .str "no"), ("romantic", .str "no"),
   ("G3", .num 11)]

/-- The three batch-mode sample students. -/
def sampleStudents : List Row := [sampleStudent1, sampleStudent2, sampleStudent3]

/-- The transformer state the batch pipeline fits on the sample students'
train partition. -/
def c10State : CTState where
  numeric :=
    [("age", 18, 22), ("Medu", 2, 4), ("traveltime", 2, 3), ("studytime", 1, 4),
     ("failures", 1, 2), ("goout", 4, 5), ("Dalc", 2, 3), ("absences", 6, 10)]
  nominal :=
    [("address", ["U"]), ("Fjob", ["teacher"]), ("guardian", ["mother"]),
     ("higher", ["yes"]), ("internet", ["no"]), ("romantic", ["no"])]

theorem listMin_le {l : List ℚ} {x : ℚ} (hx : x ∈ l) : listMin l ≤ x := by
  induction l with
  | nil => cases hx
  | cons a t ih =>
      cases t with
      | nil =>
          rcases List.mem_cons.mp hx with h | h
          · simp [listMin, h]
          · cases h
      | cons b u =>
          rcases List.mem_cons.mp hx with h | h
          · subst h; exact min_le_left _ _
          · exact le_trans (min_le_right _ _) (ih h)

theorem le_listMax {l : List ℚ} {x : ℚ} (hx : x ∈ l) : x ≤ listMax l := by
  induction l with
  | nil => cases hx
  | cons a t ih =>
      cases t with
      | nil =>
          rcases List.mem_cons.mp hx with h | h
          · simp [listMax, h]
          · cases h
      | cons b u =>
          rcases List.mem_cons.mp hx with h | h
          · subst h; exact le_max_left _ _
          · exact le_trans (ih h) (le_max_right _ _)

theorem listMin_mem {l : List ℚ} (h : l ≠ []) : listMin l ∈ l := by
  induction l with
  | nil => exact absurd rfl h
  | cons a t ih =>
      cases t with
      | nil => simp [listMin]
      | cons b u =>
          rcases min_choice a (listMin (b :: u)) with hc | hc
          · simp [listMin, hc]
          · simp only [listMin, hc]
            exact List.mem_cons_of_mem _ (ih (by simp))

theorem listMax_mem {l : List ℚ} (h : l ≠ []) : listMax l ∈ l := by
  induction l with
  | nil => exact absurd rfl h
  | cons a t ih =>
      cases t with
      | nil => simp [listMax]
      | cons b u =>
          rcases max_choice a (listMax (b :: u)) with hc | hc
          · simp [listMax, hc]
          · simp only [listMax, hc]
            exact List.mem_cons_of_mem _ (ih (by simp))

theorem listMin_le_listMax {l : List ℚ} (h : l ≠ []) : listMin l ≤ listMax l :=
  le_trans (listMin_le (listMin_mem h)) (le_listMax (listMin_mem h))

/-- C3: for a numeric-treated column whose fit-time minimum and maximum over the
training partition differ, the `MinMaxScaler` transform is
`v ↦ (v - fit_min) / (fit_max - fit_min)` with no clamping: every training
value lands in `[0, 1]`, the fit minimum maps to exactly `0`, the fit maximum
maps to exactly `1`, and values outside the fit range map outside `[0, 1]`. -/
theorem c3_minmax_range (vals : List ℚ) (hne : vals ≠ [])
    (hmm : listMax vals ≠ listMin vals) :
    scale (listMin vals) (listMax vals) (listMin vals) = 0 ∧
    scale (listMin vals) (listMax vals) (listMax vals) = 1 ∧
    (∀ v ∈ vals, 0 ≤ scale (listMin vals) (listMax vals) v ∧
      scale (listMin vals) (listMax vals) v ≤ 1) ∧
    (∀ v : ℚ, v < listMin vals → scale (listMin vals) (listMax vals) v < 0) ∧
    (∀ v : ℚ, listMax vals < v → 1 < scale (listMin vals) (listMax vals) v) ∧
    (∀ v : ℚ, scale (listMin vals) (listMax vals) v =
      (v - listMin vals) / (listMax vals - listMin vals)) := by
  have hlt : listMin vals < listMax vals :=
    lt_of_le_of_ne (listMin_le_listMax hne) (Ne.symm hmm)
  have hd : 0 < listMax vals - listMin vals := by linarith
  refine ⟨?_, ?_, ?_, ?_, ?_, fun v => rfl⟩
  · simp [scale]
  · simp only [scale]
    exact div_self (by linarith)
  · intro v hv
    constructor
    · exact div_nonneg (by linarith [listMin_le hv]) (le_of_lt hd)
    · simp only [scale]
      rw [div_le_one hd]
      linarith [le_listMax hv]
  · intro v hv
    exact div_neg_of_neg_of_pos (by linarith) hd
  · intro v hv
    simp only [scale]
    rw [lt_div_iff₀ hd]
    linarith

/-- Witness for C3 on the fit values `[15, 22, 18]` (the spec's `age`
example). -/
theorem c3_minmax_range_witness :
    scale (listMin [(15 : ℚ), 22, 18]) (listMax [(15 : ℚ), 22, 18])
      (listMin [(15 : ℚ), 22, 18]) = 0 ∧
    scale (listMin [(15 : ℚ), 22, 18]) (listMax [(15 : ℚ), 22, 18])
      (listMax [(15 : ℚ), 22, 18]) = 1 ∧
    (∀ v ∈ [(15 : ℚ), 22, 18], 0 ≤ scale (listMin [(15 : ℚ), 22, 18])
      (listMax [(15 : ℚ), 22, 18]) v ∧
      scale (listMin [(15 : ℚ), 22, 18]) (listMax [(15 : ℚ), 22, 18]) v ≤ 1) ∧
    (∀ v : ℚ, v < listMin [(15 : ℚ), 22, 18] →
      scale (listMin [(15 : ℚ), 22, 18]) (listMax [(15 : ℚ), 22, 18]) v < 0) ∧
    (∀ v : ℚ, listMax [(15 : ℚ), 22, 18] < v →
      1 < scale (listMin [(15 : ℚ), 22, 18]) (listMax [(15 : ℚ), 22, 18]) v) ∧
    (∀ v : ℚ, scale (listMin [(15 : ℚ), 22, 18]) (listMax [(15 : ℚ), 22, 18]) v =
      (v - listMin [(15 : ℚ), 22, 18]) /
        (listMax [(15 : ℚ), 22, 18] - listMin [(15 : ℚ), 22, 18])) :=
  c3_minmax_range [(15 : ℚ), 22, 18] (by decide) (by decide)

theorem mapE_ok_forall₂ {α β : Type _} {f : α → Except String β} :
    ∀ {l : List α} {out : List β}, mapE f l = .ok out →
      List.Forall₂ (fun a b => f a = .ok b) l out := by
  intro l
  induction l with
  | nil =>
      intro out h
      simp only [mapE] at h
      cases h
      exact List.Forall₂.nil
  | cons a t ih =>
      intro out h
      simp only [mapE] at h
      cases hfa : f a with
      | error e => simp [hfa] at h
      | ok b =>
          rw [hfa] at h
          cases hmt : mapE f t with
          | error e => simp [hmt] at h
          | ok bs =>
              rw [hmt] at h
              cases h
              exact List.Forall₂.cons hfa (ih hmt)

theorem forall₂_mapE_ok {α β : Type _} {f : α → Except String β}
    {l : List α} {out : List β}
    (h : List.Forall₂ (fun a b => f a = .ok b) l out) : mapE f l = .ok out := by
  induction h with
  | nil => rfl
  | cons hab _ ih => simp [mapE, hab, ih]

theorem fa2_mem_left {α β : Type _} {R : α → β → Prop} {l : List α} {out : List β}
    (h : List.Forall₂ R l out) {a : α} (ha : a ∈ l) : ∃ b, b ∈ out ∧ R a b := by
  induction h with
  | nil => cases ha
  | cons hab htail ih =>
      rcases List.mem_cons.mp ha with h1 | h1
      · subst h1; exact ⟨_, List.mem_cons_self _ _, hab⟩
      · rcases ih h1 with ⟨b, hb, hr⟩
        exact ⟨b, List.mem_cons_of_mem _ hb, hr⟩

theorem fa2_mem_right {α β : Type _} {R : α → β → Prop} {l : List α} {out : List β}
    (h : List.Forall₂ R l out) {b : β} (hb : b ∈ out) : ∃ a, a ∈ l ∧ R a b := by
  induction h with
  | nil => cases hb
  | cons hab htail ih =>
      rcases List.mem_cons.mp hb with h1 | h1
      · subst h1; exact ⟨_, List.mem_cons_self _ _, hab⟩
      · rcases ih h1 with ⟨a, ha, hr⟩
        exact ⟨a, List.mem_cons_of_mem _ ha, hr⟩

theorem insertSorted_perm (s : String) (l : List String) :
    (insertSorted s l).Perm (s :: l) := by
  induction l with
  | nil => rfl
  | cons a t ih =>
      simp only [insertSorted]
      split
      · rfl
      · exact ((ih.cons a).trans (List.Perm.swap s a t))

theorem sortStrings_perm (l : List String) : (sortStrings l).Perm l := by
  induction l with
  | nil => rfl
  | cons a t ih =>
      exact (insertSorted_perm a (sortStrings t)).trans (ih.cons a)

theorem mem_fitCats {vals : List String} {s : String} :
    s ∈ fitCats vals ↔ s ∈ vals := by
  unfold fitCats
  rw [(sortStrings_perm _).mem_iff, List.mem_dedup]

theorem fitCats_nodup (vals : List String) : (fitCats vals).Nodup :=
  (sortStrings_perm _).nodup_iff.mpr (List.nodup_dedup _)

theorem ohEncode_ok_mem {cats : List String} {v : String} {out : List ℚ}
    (h : ohEncode cats v = .ok out) : v ∈ cats := by
  by_contra hv
  simp [ohEncode, hv] at h

theorem ohEncode_ok_length {cats : List String} {v : String} {out : List ℚ}
    (h : ohEncode cats v = .ok out) : out.length = indicatorWidth cats.length := by
  have hv := ohEncode_ok_mem h
  by_cases h2 : cats.length = 2
  · simp only [ohEncode, hv, if_pos rfl, h2, if_pos rfl] at h
    cases h
    simp [indicatorWidth, h2]
  · simp only [ohEncode, hv, if_pos rfl, h2, if_neg h2] at h
    cases h
    simp [indicatorWidth, h2]

theorem fitCT_ok_nominal {rows : List Row} {st : CTState}
    (hfit : fitCT rows = .ok st) :
    List.Forall₂ (fun c p => fitColumnNominal rows c = .ok p)
      nominal_cols_to_keep st.nominal := by
  unfold fitCT at hfit
  cases h1 : mapE (fitColumnNumeric rows) numeric_cols_to_keep with
  | error e => rw [h1] at hfit; cases hfit
  | ok nums =>
      rw [h1] at hfit
      cases h2 : mapE (fitColumnNominal rows) nominal_cols_to_keep with
      | error e => rw [h2] at hfit; cases hfit
      | ok noms =>
          rw [h2] at hfit
          cases hfit
          exact mapE_ok_forall₂ h2

theorem fitCT_ok_numeric {rows : List Row} {st : CTState}
    (hfit : fitCT rows = .ok st) :
    List.Forall₂ (fun c p => fitColumnNumeric rows c = .ok p)
      numeric_cols_to_keep st.numeric := by
  unfold fitCT at hfit
  cases h1 : mapE (fitColumnNumeric rows) numeric_cols_to_keep with
  | error e => rw [h1] at hfit; cases hfit
  | ok nums =>
      rw [h1] at hfit
      cases h2 : mapE (fitColumnNominal rows) nominal_cols_to_keep with
      | error e => rw [h2] at hfit; cases hfit
      | ok noms =>
          rw [h2] at hfit
          cases hfit
          exact mapE_ok_forall₂ h1

theorem fitColumnNominal_ok_cats {rows : List Row} {c c' : String}
    {cats : List String} (h : fitColumnNominal rows c' = .ok (c, cats)) :
    c = c' ∧ ∃ vs, mapE (fun r => getStr r c') rows = .ok vs ∧ cats = fitCats vs := by
  unfold fitColumnNominal at h
  cases hm : mapE (fun r => getStr r c') rows with
  | error e => rw [hm] at h; cases h
  | ok vs =>
      rw [hm] at h
      cases h
      exact ⟨rfl, vs, rfl, rfl⟩

/-- C1: with a previously fit transformer state, transforming a row whose
value in a nominal column is a category never observed during fit is a hard
error (`OneHotEncoder(handle_unknown='error')`); the transform yields no
output at all, so in particular no all-zero or default indicator encoding. -/
theorem c1_unseen_category_fails (rows : List Row) (st : CTState)
    (hfit : fitCT rows = .ok st) (c : String) (cats : List String)
    (hc : (c, cats) ∈ st.nominal) (r : Row) (s : String)
    (hs : getStr r c = .ok s)
    (hunseen : ∀ r' ∈ rows, getStr r' c ≠ .ok s) :
    ∃ e, transformRow st r = .error e := by
  -- the fitted categories of column c are exactly the values observed at fit
  rcases fa2_mem_right (fitCT_ok_nominal hfit) hc with ⟨c₀, hc₀, hcol⟩
  rcases fitColumnNominal_ok_cats hcol with ⟨hcc, vs, hvs, hcats⟩
  subst hcc
  have hnotin : s ∉ cats := by
    intro hin
    rw [hcats, mem_fitCats] at hin
    rcases fa2_mem_right (mapE_ok_forall₂ hvs) hin with ⟨r', hr', hget⟩
    exact hunseen r' hr' hget
  -- if the whole transform succeeded, the encoder of column c succeeded
  cases htr : transformRow st r with
  | error e => exact ⟨e, rfl⟩
  | ok out =>
      exfalso
      unfold transformRow at htr
      cases h1 : mapE (numScaleCell r) st.numeric with
      | error e => rw [h1] at htr; cases htr
      | ok nums =>
          rw [h1] at htr
          cases h2 : mapE (nomEncodeCell r) st.nominal with
          | error e => rw [h2] at htr; cases htr
          | ok noms =>
              rcases fa2_mem_left (mapE_ok_forall₂ h2) hc with ⟨bl, _, hbl⟩
              simp only [nomEncodeCell, hs] at hbl
              exact hnotin (ohEncode_ok_mem hbl)

/-- Witness for C1: the fitted categories of `address` are `R` and `U`; a row
carrying the unseen category `X` makes the transform fail. -/
theorem c1_unseen_category_fails_witness :
    ∃ e, transformRow sampleState (("address", Val.str "X") :: sampleRow1) = .error e :=
  c1_unseen_category_fails [sampleRow1, sampleRow2] sampleState (by decide)
    "address" ["R", "U"] (by decide)
    (("address", Val.str "X") :: sampleRow1) "X" (by decide)
    (by decide)

theorem fa2_map_eq {α β : Type _} {g : β → α} {l : List α} {out : List β}
    (h : List.Forall₂ (fun a b => g b = a) l out) : out.map g = l := by
  induction h with
  | nil => rfl
  | cons hab _ ih => simp [hab, ih]

theorem fa2_map_congr {α β γ : Type _} {f : α → γ} {g : β → γ}
    {l₁ : List α} {l₂ : List β}
    (h : List.Forall₂ (fun a b => f a = g b) l₁ l₂) : l₁.map f = l₂.map g := by
  induction h with
  | nil => rfl
  | cons hab _ ih => simp [hab, ih]

theorem fitColumnNumeric_ok_name {rows : List Row} {c : String}
    {p : String × ℚ × ℚ} (h : fitColumnNumeric rows c = .ok p) : p.1 = c := by
  unfold fitColumnNumeric at h
  cases hm : mapE (fun r => getNum r c) rows with
  | error e => rw [hm] at h; cases h
  | ok vs => rw [hm] at h; cases h; rfl

theorem nomEncodeCell_ok_length {r : Row} {p : String × List String}
    {bl : List ℚ} (h : nomEncodeCell r p = .ok bl) :
    bl.length = indicatorWidth p.2.length := by
  unfold nomEncodeCell at h
  cases hg : getStr r p.1 with
  | error e => rw [hg] at h; cases h
  | ok s => rw [hg] at h; exact ohEncode_ok_length h

theorem transformRow_ok_parts {st : CTState} {r : Row} {out : List ℚ}
    (h : transformRow st r = .ok out) :
    ∃ nums noms, mapE (numScaleCell r) st.numeric = .ok nums ∧
      mapE (nomEncodeCell r) st.nominal = .ok noms ∧
      out = nums ++ noms.flatten := by
  unfold transformRow at h
  cases h1 : mapE (numScaleCell r) st.numeric with
  | error e => rw [h1] at h; cases h
  | ok nums =>
      rw [h1] at h
      cases h2 : mapE (nomEncodeCell r) st.nominal with
      | error e => rw [h2] at h; cases h
      | ok noms =>
          rw [h2] at h
          cases h
          exact ⟨nums, noms, rfl, rfl, rfl⟩

/-- C4: a successfully transformed row has exactly
`8 + sum(indicator widths)` feature entries, laid out deterministically: the 8
numeric columns first in configured order, then one indicator block per
nominal column in configured order; a nominal column with `k` distinct
fit-time categories contributes `k` indicator columns when `k > 2` and exactly
`1` when `k = 2`. -/
theorem c4_output_shape (rows : List Row) (st : CTState)
    (hfit : fitCT rows = .ok st) (r : Row) (out : List ℚ)
    (hok : transformRow st r = .ok out) :
    st.numeric.map Prod.fst = numeric_cols_to_keep ∧
    st.nominal.map Prod.fst = nominal_cols_to_keep ∧
    (∀ p ∈ st.nominal, p.2.Nodup) ∧
    out.length = 8 + (st.nominal.map (fun p => indicatorWidth p.2.length)).sum ∧
    (∃ nums noms, out = nums ++ noms.flatten ∧ nums.length = 8 ∧
      List.Forall₂ (fun bl p => bl.length = indicatorWidth p.2.length)
        noms st.nominal) ∧
    (∀ p ∈ st.nominal,
      (2 < p.2.length → indicatorWidth p.2.length = p.2.length) ∧
      (p.2.length = 2 → indicatorWidth p.2.length = 1)) := by
  have hnum := fitCT_ok_numeric hfit
  have hnom := fitCT_ok_nominal hfit
  have hnumNames : st.numeric.map Prod.fst = numeric_cols_to_keep :=
    fa2_map_eq (hnum.imp (fun _ _ hcp => fitColumnNumeric_ok_name hcp))
  have hnomNames : st.nominal.map Prod.fst = nominal_cols_to_keep :=
    fa2_map_eq (hnom.imp (fun _ _ hcp => (fitColumnNominal_ok_cats hcp).1))
  have hnumLen : st.numeric.length = 8 := by
    have := congrArg List.length hnumNames
    simpa [numeric_cols_to_keep] using this
  rcases transformRow_ok_parts hok with ⟨nums, noms, h1, h2, hout⟩
  have hnums : nums.length = 8 := by
    have := (mapE_ok_forall₂ h1).length_eq
    omega
  have hblocks : List.Forall₂ (fun bl p => bl.length = indicatorWidth p.2.length)
      noms st.nominal :=
    ((mapE_ok_forall₂ h2).imp (fun _ _ hcell => nomEncodeCell_ok_length hcell)).flip
  refine ⟨hnumNames, hnomNames, ?_, ?_, ⟨nums, noms, hout, hnums, hblocks⟩, ?_⟩
  · intro p hp
    rcases fa2_mem_right hnom hp with ⟨c₀, _, hcol⟩
    rcases fitColumnNominal_ok_cats hcol with ⟨_, vs, _, hcats⟩
    rw [hcats]
    exact fitCats_nodup vs
  · have hsum : (noms.map List.length).sum =
        (st.nominal.map (fun p => indicatorWidth p.2.length)).sum :=
      congrArg List.sum (fa2_map_congr hblocks)
    simp [hout, List.length_append, List.length_flatten, hnums, hsum]
  · intro p _
    constructor
    · intro hgt
      have hne2 : p.2.length ≠ 2 := by omega
      simp [indicatorWidth, hne2]
    · intro h2'
      simp [indicatorWidth, h2']

/-- Witness for C4 on the sample state fitted from the two sample rows. -/
theorem c4_output_shape_witness :
    sampleState.numeric.map Prod.fst = numeric_cols_to_keep ∧
    sampleState.nominal.map Prod.fst = nominal_cols_to_keep ∧
    (∀ p ∈ sampleState.nominal, p.2.Nodup) ∧
    ([(0 : ℚ), 0, 0, 1, 0, 0, 0, 0, 1, 1, 1, 1, 0, 0].length =
      8 + (sampleState.nominal.map (fun p => indicatorWidth p.2.length)).sum) ∧
    (∃ nums noms, [(0 : ℚ), 0, 0, 1, 0, 0, 0, 0, 1, 1, 1, 1, 0, 0] =
        nums ++ noms.flatten ∧ nums.length = 8 ∧
      List.Forall₂ (fun bl p => bl.length = indicatorWidth p.2.length)
        noms sampleState.nominal) ∧
    (∀ p ∈ sampleState.nominal,
      (2 < p.2.length → indicatorWidth p.2.length = p.2.length) ∧
      (p.2.length = 2 → indicatorWidth p.2.length = 1)) :=
  c4_output_shape [sampleRow1, sampleRow2] sampleState (by decide)
    sampleRow1 [(0 : ℚ), 0, 0, 1, 0, 0, 0, 0, 1, 1, 1, 1, 0, 0]
    (by simp only [transformRow, sampleState, sampleRow1, mapE, numScaleCell,
          nomEncodeCell, getNum, getStr, scale, ohEncode, List.lookup,
          indicatorWidth, String.reduceBEq, beq_self_eq_true, String.reduceEq]
        norm_num <;> decide)

/-- C2 counterexample: a parsed `text/csv` body of width 3 — neither
`schema_width + 1` nor `schema_width` — is returned unchanged by `input_fn`
(silently accepted), not rejected with a format error as the claim states. -/
theorem c2_counterexample :
    input_fn ⟨["c0", "c1", "c2"], []⟩ "text/csv" = .ok ⟨["c0", "c1", "c2"], []⟩ := by
  decide

/-- C2 (amended): for `text/csv` requests, a parsed width of
`schema_width + 1` relabels the frame as labelled data (feature names plus
`G3`) and a width of `schema_width` as unlabelled data; any other width is
passed through unchanged without an error. Only a content type other than
`text/csv` is rejected. -/
theorem c2_width_dispatch (f : Frame) (content_type : String) :
    (content_type = "text/csv" →
      (f.cols.length = feature_columns_names.length + 1 →
        input_fn f content_type = .ok ⟨feature_columns_names ++ [label_column], f.cells⟩) ∧
      (f.cols.length = feature_columns_names.length →
        input_fn f content_type = .ok ⟨feature_columns_names, f.cells⟩) ∧
      (f.cols.length ≠ feature_columns_names.length + 1 →
        f.cols.length ≠ feature_columns_names.length →
        input_fn f content_type = .ok f)) ∧
    (content_type ≠ "text/csv" → ∃ e, input_fn f content_type = .error e) := by
  constructor
  · intro hct
    subst hct
    refine ⟨?_, ?_, ?_⟩
    · intro h33
      simp [input_fn, h33]
    · intro h32
      have hne : f.cols.length ≠ feature_columns_names.length + 1 := by omega
      simp [input_fn, h32, hne]
    · intro hne1 hne2
      simp [input_fn, hne1, hne2]
  · intro hct
    exact ⟨content_type ++ " not supported by script!", by simp [input_fn, hct]⟩

/-- Witness for the amended C2: a labelled-width frame is relabelled with the
feature names plus `G3`. -/
theorem c2_width_dispatch_witness :
    input_fn ⟨feature_columns_names ++ [label_column], []⟩ "text/csv" =
      .ok ⟨feature_columns_names ++ [label_column], []⟩ :=
  ((c2_width_dispatch ⟨feature_columns_names ++ [label_column], []⟩ "text/csv").1
    rfl).1 (by decide)

/-- C6: the served adapter accepts exactly two response encodings — the JSON
object `{"instances": [{"features": [...]}, ...]}` for `application/json` and
delimited text for `text/csv`, selected by the accept parameter; any other
accept type is an explicit unsupported-type error, and any request content
type other than `text/csv` is an explicit unsupported-type error in
`input_fn`; neither falls back to a default encoding. -/
theorem c6_content_negotiation (prediction : List (List ℚ)) (accept : String)
    (f : Frame) (content_type : String) :
    (accept = "application/json" →
      output_fn prediction accept = .ok (.inl (jsonOutput prediction))) ∧
    (accept = "text/csv" → output_fn prediction accept = .ok (.inr prediction)) ∧
    (accept ≠ "application/json" → accept ≠ "text/csv" →
      ∃ e, output_fn prediction accept = .error e) ∧
    (content_type ≠ "text/csv" → ∃ e, input_fn f content_type = .error e) := by
  refine ⟨?_, ?_, ?_, ?_⟩
  · intro h
    subst h
    simp [output_fn]
  · intro h
    subst h
    simp [output_fn]
  · intro h1 h2
    exact ⟨accept ++ " accept type is not supported by this script.",
      by simp [output_fn, h1, h2]⟩
  · intro h
    exact ⟨content_type ++ " not supported by script!", by simp [input_fn, h]⟩

/-- Witness for C6: `application/json` yields the instances object, and an
unsupported accept type is an error. -/
theorem c6_content_negotiation_witness :
    output_fn [[(1 : ℚ), 0]] "application/json" =
      .ok (.inl (jsonOutput [[(1 : ℚ), 0]])) ∧
    (∃ e, output_fn [[(1 : ℚ), 0]] "text/html" = .error e) :=
  ⟨(c6_content_negotiation [[(1 : ℚ), 0]] "application/json" ⟨[], []⟩ "text/html").1 rfl,
   (c6_content_negotiation [[(1 : ℚ), 0]] "text/html" ⟨[], []⟩ "text/html").2.2.1
     (by decide) (by decide)⟩

/-- C5: when the label column `G3` is present in a served-mode input frame,
`predict_fn` re-attaches each row's own `G3` value — read unchanged from the
input — as the first entry of that row's output, in front of the transformed
features; when `G3` is absent, the output is exactly the transformed
features. -/
theorem c5_label_roundtrip (input : Frame) (st : CTState) (out : List (List ℚ))
    (hok : predict_fn input st = .ok out) :
    (label_column ∈ input.cols →
      ∃ feats labels, transformAll st input = .ok feats ∧
        List.Forall₂ (fun cr l => getNum (input.cols.zip cr) label_column = .ok l)
          input.cells labels ∧
        out = (labels.zip feats).map (fun p => p.1 :: p.2)) ∧
    (label_column ∉ input.cols → transformAll st input = .ok out) := by
  unfold predict_fn at hok
  split at hok
  next e heq => cases hok
  next feats heq =>
    split at hok
    next hmem =>
      split at hok
      next e heq2 => cases hok
      next labels heq2 =>
        cases hok
        exact ⟨fun _ => ⟨feats, labels, heq, mapE_ok_forall₂ heq2, rfl⟩,
          fun hab => absurd hmem hab⟩
    next hmem =>
      cases hok
      exact ⟨fun hmem' => absurd hmem' hmem, fun _ => heq⟩

/-- Witness for C5 on the labelled sample frame: labels 14 and 9 come back as
the first output entries of their own rows. -/
theorem c5_label_roundtrip_witness :
    (label_column ∈ sampleLabelledFrame.cols →
      ∃ feats labels, transformAll sampleState sampleLabelledFrame = .ok feats ∧
        List.Forall₂
          (fun cr l => getNum (sampleLabelledFrame.cols.zip cr) label_column = .ok l)
          sampleLabelledFrame.cells labels ∧
        [[(14 : ℚ), 0, 0, 0, 1, 0, 0, 0, 0, 1, 1, 1, 1, 0, 0],
         [(9 : ℚ), 1, 1, 1, 0, 1, 1, 1, 1, 0, 0, 0, 0, 1, 1]] =
          (labels.zip feats).map (fun p => p.1 :: p.2)) ∧
    (label_column ∉ sampleLabelledFrame.cols →
      transformAll sampleState sampleLabelledFrame =
        .ok [[(14 : ℚ), 0, 0, 0, 1, 0, 0, 0, 0, 1, 1, 1, 1, 0, 0],
             [(9 : ℚ), 1, 1, 1, 0, 1, 1, 1, 1, 0, 0, 0, 0, 1, 1]]) :=
  c5_label_roundtrip sampleLabelledFrame sampleState
    [[(14 : ℚ), 0, 0, 0, 1, 0, 0, 0, 0, 1, 1, 1, 1, 0, 0],
     [(9 : ℚ), 1, 1, 1, 0, 1, 1, 1, 1, 0, 0, 0, 0, 1, 1]]
    (by simp only [predict_fn, transformAll, sampleLabelledFrame, sampleCols,
          sampleCells1, sampleCells2, label_column, mapE, transformRow,
          sampleState, numScaleCell, nomEncodeCell, getNum, getStr, scale,
          ohEncode, List.lookup, List.zip, List.zipWith, List.mem_cons,
          String.reduceBEq, beq_self_eq_true, String.reduceEq]
        norm_num <;> decide)

theorem mapE_congr {α β : Type _} {f g : α → Except String β} :
    ∀ {l : List α}, (∀ a ∈ l, f a = g a) → mapE f l = mapE g l := by
  intro l
  induction l with
  | nil => intro _; rfl
  | cons a t ih =>
      intro h
      simp only [mapE, h a (List.mem_cons_self a t),
        ih (fun x hx => h x (List.mem_cons_of_mem a hx))]

theorem lookup_append_single {r : Row} {k c : String} {v : Val} (hck : c ≠ k) :
    (r ++ [(k, v)]).lookup c = r.lookup c := by
  have hkc : (c == k) = false := beq_eq_false_iff_ne.mpr hck
  induction r with
  | nil => simp [List.lookup, hkc]
  | cons a t ih =>
      obtain ⟨k', v'⟩ := a
      simp only [List.cons_append, List.lookup]
      cases hk : (c == k') <;> simp [hk, ih]

theorem getNum_append_single {r : Row} {k c : String} {v : Val} (hck : c ≠ k) :
    getNum (r ++ [(k, v)]) c = getNum r c := by
  unfold getNum
  rw [lookup_append_single hck]

theorem getStr_append_single {r : Row} {k c : String} {v : Val} (hck : c ≠ k) :
    getStr (r ++ [(k, v)]) c = getStr r c := by
  unfold getStr
  rw [lookup_append_single hck]

theorem transformRow_append_label {rows₀ : List Row} {st : CTState}
    (hfit : fitCT rows₀ = .ok st) (r : Row) (v : Val) :
    transformRow st (r ++ [(label_column, v)]) = transformRow st r := by
  have hnumNames : st.numeric.map Prod.fst = numeric_cols_to_keep :=
    fa2_map_eq ((fitCT_ok_numeric hfit).imp (fun _ _ h => fitColumnNumeric_ok_name h))
  have hnomNames : st.nominal.map Prod.fst = nominal_cols_to_keep :=
    fa2_map_eq ((fitCT_ok_nominal hfit).imp (fun _ _ h => (fitColumnNominal_ok_cats h).1))
  have hallNum : ∀ x ∈ numeric_cols_to_keep, x ≠ label_column := by decide
  have hallNom : ∀ x ∈ nominal_cols_to_keep, x ≠ label_column := by decide
  unfold transformRow
  have h1 : mapE (numScaleCell (r ++ [(label_column, v)])) st.numeric =
      mapE (numScaleCell r) st.numeric := by
    apply mapE_congr
    intro p hp
    have hc : p.1 ∈ numeric_cols_to_keep := by
      rw [← hnumNames]
      exact List.mem_map_of_mem _ hp
    unfold numScaleCell
    rw [getNum_append_single (hallNum _ hc)]
  have h2 : mapE (nomEncodeCell (r ++ [(label_column, v)])) st.nominal =
      mapE (nomEncodeCell r) st.nominal := by
    apply mapE_congr
    intro p hp
    have hc : p.1 ∈ nominal_cols_to_keep := by
      rw [← hnomNames]
      exact List.mem_map_of_mem _ hp
    unfold nomEncodeCell
    rw [getStr_append_single (hallNom _ hc)]
  rw [h1, h2]

theorem transformAll_labelled {rows₀ : List Row} {st : CTState}
    (hfit : fitCT rows₀ = .ok st) (cols : List String) :
    ∀ (cells : List (List Val)) (labels : List Val),
      (∀ cr ∈ cells, cr.length = cols.length) →
      cells.length = labels.length →
      mapE (fun cr => transformRow st ((cols ++ [label_column]).zip cr))
        (List.zipWith (fun cr v => cr ++ [v]) cells labels) =
      mapE (fun cr => transformRow st (cols.zip cr)) cells := by
  intro cells
  induction cells with
  | nil => intro labels _ _; rfl
  | cons cr crs ih =>
      intro labels hlen hcnt
      cases labels with
      | nil => simp at hcnt
      | cons v vs =>
          have hzip : (cols ++ [label_column]).zip (cr ++ [v]) =
              cols.zip cr ++ [(label_column, v)] := by
            rw [List.zip_append (by rw [hlen cr (List.mem_cons_self cr crs)])]
            rfl
          simp only [List.zipWith_cons_cons, mapE, hzip,
            transformRow_append_label hfit]
          rw [ih vs (fun x hx => hlen x (List.mem_cons_of_mem _ hx))
            (by simpa using hcnt)]

/-- C9: the transformed feature values served by `predict_fn` are identical
whether or not the `G3` label column is present in the input: appending a
`G3` column does not change the transform of any row (the transformer drops
`G3` as a non-selected column), and on an unlabelled frame `predict_fn`
returns exactly the transformed features. -/
theorem c9_label_invariance (rows₀ : List Row) (st : CTState)
    (hfit : fitCT rows₀ = .ok st) (cols : List String) (cells : List (List Val))
    (labels : List Val) (hG3 : label_column ∉ cols)
    (hlen : ∀ cr ∈ cells, cr.length = cols.length)
    (hcnt : cells.length = labels.length) :
    transformAll st (mkLabelled cols cells labels) = transformAll st ⟨cols, cells⟩ ∧
    predict_fn ⟨cols, cells⟩ st = transformAll st ⟨cols, cells⟩ := by
  constructor
  · exact transformAll_labelled hfit cols cells labels hlen hcnt
  · cases hta : transformAll st ⟨cols, cells⟩ with
    | error e => simp [predict_fn, hta]
    | ok feats => simp [predict_fn, hta, hG3]

/-- Witness for C9: attaching labels 14 and 9 to the sample frame leaves the
transformed features unchanged. -/
theorem c9_label_invariance_witness :
    transformAll sampleState
        (mkLabelled sampleCols [sampleCells1, sampleCells2]
          [Val.num 14, Val.num 9]) =
      transformAll sampleState ⟨sampleCols, [sampleCells1, sampleCells2]⟩ ∧
    predict_fn ⟨sampleCols, [sampleCells1, sampleCells2]⟩ sampleState =
      transformAll sampleState ⟨sampleCols, [sampleCells1, sampleCells2]⟩ :=
  c9_label_invariance [sampleRow1, sampleRow2] sampleState (by decide)
    sampleCols [sampleCells1, sampleCells2] [Val.num 14, Val.num 9]
    (by decide) (by decide) (by decide)

theorem perm_cons_getD_eraseIdx :
    ∀ (l : List Nat) (j : Nat), j < l.length →
      l.Perm (l.getD j 0 :: l.eraseIdx j) := by
  intro l
  induction l with
  | nil => intro j hj; simp at hj
  | cons a t ih =>
      intro j hj
      cases j with
      | zero => simp
      | succ k =>
          have hk : k < t.length := by simpa using hj
          have h1 : (a :: t).Perm (a :: (t.getD k 0 :: t.eraseIdx k)) :=
            (ih k hk).cons a
          have h2 : (a :: (t.getD k 0 :: t.eraseIdx k)).Perm
              (t.getD k 0 :: a :: t.eraseIdx k) := List.Perm.swap _ _ _
          simpa using h1.trans h2

theorem shuffleGo_perm : ∀ (fuel g : Nat) (l : List Nat), (shuffleGo fuel g l).Perm l := by
  intro fuel
  induction fuel with
  | zero => intro g l; rfl
  | succ n ih =>
      intro g l
      cases l with
      | nil => rfl
      | cons a t =>
          have hj : g % (a :: t).length < (a :: t).length :=
            Nat.mod_lt _ (by simp)
          exact ((ih (lcgNext g) _).cons _).trans
            (perm_cons_getD_eraseIdx (a :: t) _ hj).symm

theorem shuffledRange_perm (seed n : Nat) :
    (shuffledRange seed n).Perm (List.range n) :=
  shuffleGo_perm n (lcgNext seed) (List.range n)

theorem shuffledRange_nodup (seed n : Nat) : (shuffledRange seed n).Nodup :=
  (shuffledRange_perm seed n).nodup_iff.mpr (List.nodup_range n)

theorem shuffledRange_length (seed n : Nat) : (shuffledRange seed n).length = n :=
  ((shuffledRange_perm seed n).length_eq).trans (List.length_range n)

theorem shuffledRange_mem_lt {seed n j : Nat} (hj : j ∈ shuffledRange seed n) :
    j < n :=
  List.mem_range.mp ((shuffledRange_perm seed n).mem_iff.mp hj)

theorem selectIdx_length {α : Type _} {X : List α} :
    ∀ {idx : List Nat}, (∀ j ∈ idx, j < X.length) →
      (selectIdx X idx).length = idx.length := by
  intro idx
  induction idx with
  | nil => intro _; rfl
  | cons j t ih =>
      intro h
      have hj : j < X.length := h j (List.mem_cons_self j t)
      obtain ⟨b, hb⟩ : ∃ b, X[j]? = some b :=
        ⟨X.get ⟨j, hj⟩, by rw [List.getElem?_eq_getElem hj]; rfl⟩
      have ht := ih (fun x hx => h x (List.mem_cons_of_mem _ hx))
      unfold selectIdx at ht ⊢
      rw [List.filterMap_cons, hb]
      simp [ht]

theorem selectIdx_range {α : Type _} (X : List α) :
    selectIdx X (List.range X.length) = X := by
  induction X with
  | nil => rfl
  | cons a t ih =>
      simp only [selectIdx, List.length_cons, List.range_succ_eq_map,
        List.filterMap_cons, List.getElem?_cons_zero, List.filterMap_map]
      have : (fun j => (a :: t)[j + 1]?) = fun j => t[j]? := by
        funext j
        exact List.getElem?_cons_succ
      simp only [Function.comp_def, this]
      simpa [selectIdx] using ih

theorem nTestOf_1044 : nTestOf TEST_SIZE 1044 = 105 := by
  have h : (⌈TEST_SIZE * ((1044 : Nat) : ℚ)⌉ : ℤ) = 105 := by
    rw [Int.ceil_eq_iff]
    constructor <;> norm_num [TEST_SIZE]
  unfold nTestOf
  rw [h]
  rfl

/-- C7: splitting a 1044-row dataset (395 math rows concatenated with 649
Portuguese rows) with `test_size = 0.1` produces a test partition of
`ceil(1044 * 0.1) = 105` rows and a train partition of the remaining 939; the
two partitions use disjoint row positions, and together they are a
permutation of the input rows, so no row slot appears in both. -/
theorem c7_split_sizes {α : Type _} (X : List α) (rs g : Nat)
    (hlen : X.length = 1044) :
    ((train_test_split_idx (some rs) g TEST_SIZE X.length).2).length = 105 ∧
    ((train_test_split_idx (some rs) g TEST_SIZE X.length).1).length = 939 ∧
    List.Disjoint (train_test_split_idx (some rs) g TEST_SIZE X.length).2
      (train_test_split_idx (some rs) g TEST_SIZE X.length).1 ∧
    (selectIdx X (train_test_split_idx (some rs) g TEST_SIZE X.length).2 ++
      selectIdx X (train_test_split_idx (some rs) g TEST_SIZE X.length).1).Perm X ∧
    (selectIdx X (train_test_split_idx (some rs) g TEST_SIZE X.length).2).length = 105 ∧
    (selectIdx X (train_test_split_idx (some rs) g TEST_SIZE X.length).1).length = 939 := by
  have hgd : (some rs).getD g = rs := rfl
  have hperm : (shuffledRange rs X.length).Perm (List.range X.length) :=
    shuffledRange_perm rs X.length
  have hnd : (shuffledRange rs X.length).Nodup := shuffledRange_nodup rs X.length
  have hlenp : (shuffledRange rs X.length).length = X.length :=
    shuffledRange_length rs X.length
  have hnt : nTestOf TEST_SIZE X.length = 105 := by rw [hlen]; exact nTestOf_1044
  have hmem : ∀ j ∈ shuffledRange rs X.length, j < X.length :=
    fun j hj => shuffledRange_mem_lt hj
  simp only [train_test_split_idx, hgd, hnt]
  have htake : ∀ j ∈ (shuffledRange rs X.length).take 105, j < X.length :=
    fun j hj => hmem j (List.mem_of_mem_take hj)
  have hdrop : ∀ j ∈ (shuffledRange rs X.length).drop 105, j < X.length :=
    fun j hj => hmem j (List.mem_of_mem_drop hj)
  have htl : ((shuffledRange rs X.length).take 105).length = 105 := by
    rw [List.length_take]
    omega
  have hdl : ((shuffledRange rs X.length).drop 105).length = 939 := by
    rw [List.length_drop]
    omega
  refine ⟨htl, hdl, List.disjoint_take_drop hnd (le_refl 105), ?_, ?_, ?_⟩
  · have hsplit : selectIdx X ((shuffledRange rs X.length).take 105) ++
        selectIdx X ((shuffledRange rs X.length).drop 105) =
        selectIdx X (shuffledRange rs X.length) := by
      unfold selectIdx
      rw [← List.filterMap_append, List.take_append_drop]
    rw [hsplit]
    have h1 : (selectIdx X (shuffledRange rs X.length)).Perm
        (selectIdx X (List.range X.length)) :=
      List.Perm.filterMap _ hperm
    rw [selectIdx_range X] at h1
    exact h1
  · rw [selectIdx_length htake, htl]
  · rw [selectIdx_length hdrop, hdl]

/-- Witness for C7: the concrete 1044-element input. -/
theorem c7_split_sizes_witness :
    ((train_test_split_idx (some RAND_STATE) 0 TEST_SIZE
        (List.range 1044).length).2).length = 105 ∧
    ((train_test_split_idx (some RAND_STATE) 0 TEST_SIZE
        (List.range 1044).length).1).length = 939 ∧
    List.Disjoint
      (train_test_split_idx (some RAND_STATE) 0 TEST_SIZE (List.range 1044).length).2
      (train_test_split_idx (some RAND_STATE) 0 TEST_SIZE (List.range 1044).length).1 ∧
    (selectIdx (List.range 1044)
        (train_test_split_idx (some RAND_STATE) 0 TEST_SIZE (List.range 1044).length).2 ++
      selectIdx (List.range 1044)
        (train_test_split_idx (some RAND_STATE) 0 TEST_SIZE (List.range 1044).length).1).Perm
      (List.range 1044) ∧
    (selectIdx (List.range 1044)
      (train_test_split_idx (some RAND_STATE) 0 TEST_SIZE (List.range 1044).length).2).length = 105 ∧
    (selectIdx (List.range 1044)
      (train_test_split_idx (some RAND_STATE) 0 TEST_SIZE (List.range 1044).length).1).length = 939 :=
  c7_split_sizes (List.range 1044) RAND_STATE 0 (by simp)

/-- C8: the split is deterministic and reproducible: with `random_state`
fixed (the notebook passes `RAND_STATE = 12`), the resulting train and test
memberships do not depend on the ambient interpreter RNG state, so two runs
with the same seed, the same fraction and the same input order produce
identical partitions. -/
theorem c8_split_deterministic {α β : Type _} (X : List α) (y : List β) (t : ℚ)
    (rs g₁ g₂ : Nat) :
    train_test_split X y t (some rs) g₁ = train_test_split X y t (some rs) g₂ := by
  simp [train_test_split, train_test_split_idx]

theorem selectIdx_map {α β : Type _} (f : α → β) (l : List α) :
    ∀ idx, selectIdx (l.map f) idx = (selectIdx l idx).map f := by
  intro idx
  unfold selectIdx
  rw [List.map_filterMap]
  have hfun : (fun j : Nat => (List.map f l)[j]?) = fun j : Nat => (l[j]?).map f := by
    funext j
    exact List.getElem?_map f l j
  rw [hfun]

theorem fa2_getElem {α β : Type _} {R : α → β → Prop} :
    ∀ {l₁ : List α} {l₂ : List β}, List.Forall₂ R l₁ l₂ → ∀ j : Nat,
      (l₁[j]? = none ∧ l₂[j]? = none) ∨
      (∃ a b, l₁[j]? = some a ∧ l₂[j]? = some b ∧ R a b) := by
  intro l₁ l₂ h
  induction h with
  | nil => intro j; left; simp
  | cons hab htail ih =>
      intro j
      cases j with
      | zero =>
          right
          exact ⟨_, _, by simp, by simp, hab⟩
      | succ k =>
          simp only [List.getElem?_cons_succ]
          exact ih k

theorem fa2_selectIdx {α β : Type _} {R : α → β → Prop} {l₁ : List α}
    {l₂ : List β} (h : List.Forall₂ R l₁ l₂) :
    ∀ idx, List.Forall₂ R (selectIdx l₁ idx) (selectIdx l₂ idx) := by
  intro idx
  induction idx with
  | nil => exact List.Forall₂.nil
  | cons j t ih =>
      simp only [selectIdx, List.filterMap_cons] at ih ⊢
      rcases fa2_getElem h j with ⟨h1, h2⟩ | ⟨a, b, h1, h2, hr⟩
      · rw [h1, h2]
        exact ih
      · rw [h1, h2]
        exact List.Forall₂.cons hr ih

theorem mapE_map {α β γ : Type _} (f : β → Except String γ) (g : α → β) :
    ∀ l : List α, mapE f (l.map g) = mapE (fun a => f (g a)) l := by
  intro l
  induction l with
  | nil => rfl
  | cons a t ih => simp only [List.map_cons, mapE, ih]

theorem mapE_processedRow {st : CTState} :
    ∀ {srcs : List Row} {feats : List (List ℚ)} {labels : List ℚ},
      List.Forall₂ (fun src f => transformRow st (dropG3 src) = .ok f) srcs feats →
      List.Forall₂ (fun src q => getNum src label_column = .ok q) srcs labels →
      mapE (processedRowOf st) srcs = .ok (attachLabels feats labels) := by
  intro srcs
  induction srcs with
  | nil =>
      intro feats labels h1 h2
      cases h1
      cases h2
      rfl
  | cons src rest ih =>
      intro feats labels h1 h2
      cases h1 with
      | cons hf h1t =>
          cases h2 with
          | cons hl h2t =>
              simp only [mapE, processedRowOf, hf, hl, ih h1t h2t, attachLabels,
                List.zipWith_cons_cons]

/-- C10: in batch mode the per-row feature/label correspondence survives the
shuffled split and the positional label reattachment: row `i` of the written
train (resp. test) table is exactly the transformed features of the source
student at shuffled position `i`, followed by that same student's own `G3`
value. -/
theorem c10_row_label_correspondence (g : Nat) (students : List Row)
    (trainT testT : List (List ℚ))
    (hok : batchPreprocess g students = .ok (trainT, testT)) :
    ∃ st, fitCT (selectIdx (students.map dropG3)
        (train_test_split_idx (some RAND_STATE) g TEST_SIZE students.length).1) =
          .ok st ∧
      mapE (processedRowOf st)
        (selectIdx students
          (train_test_split_idx (some RAND_STATE) g TEST_SIZE students.length).1) =
        .ok trainT ∧
      mapE (processedRowOf st)
        (selectIdx students
          (train_test_split_idx (some RAND_STATE) g TEST_SIZE students.length).2) =
        .ok testT := by
  unfold batchPreprocess at hok
  split at hok
  next e hy => cases hok
  next y hy =>
    split at hok
    next XTrain XTest yTrain yTest hsplit =>
      split at hok
      next e hst => cases hok
      next st hst =>
        split at hok
        next e htr => cases hok
        next trainFeats htr =>
          split at hok
          next e hte => cases hok
          next testFeats hte =>
            simp only [Except.ok.injEq, Prod.mk.injEq] at hok
            obtain ⟨h1, h2⟩ := hok
            subst h1
            subst h2
            simp only [train_test_split, List.length_map, Prod.mk.injEq] at hsplit
            obtain ⟨hXtr, hXte, hytr, hyte⟩ := hsplit
            have hyFa := mapE_ok_forall₂ hy
            refine ⟨st, ?_, ?_, ?_⟩
            · rw [hXtr]
              exact hst
            · have htrF : List.Forall₂
                  (fun src f => transformRow st (dropG3 src) = .ok f)
                  (selectIdx students
                    (train_test_split_idx (some RAND_STATE) g TEST_SIZE
                      students.length).1) trainFeats := by
                rw [← hXtr, selectIdx_map, mapE_map] at htr
                exact mapE_ok_forall₂ htr
              have hyF := fa2_selectIdx hyFa
                (train_test_split_idx (some RAND_STATE) g TEST_SIZE students.length).1
              rw [mapE_processedRow htrF hyF, hytr]
            · have hteF : List.Forall₂
                  (fun src f => transformRow st (dropG3 src) = .ok f)
                  (selectIdx students
                    (train_test_split_idx (some RAND_STATE) g TEST_SIZE
                      students.length).2) testFeats := by
                rw [← hXte, selectIdx_map, mapE_map] at hte
                exact mapE_ok_forall₂ hte
              have hyF := fa2_selectIdx hyFa
                (train_test_split_idx (some RAND_STATE) g TEST_SIZE students.length).2
              rw [mapE_processedRow hteF hyF, hyte]

/-- Witness for C10 on three concrete students: with seed 12 the test
partition is student 1 and the train partition students 2 and 3; each output
row carries the transformed features and the `G3` label of one and the same
source student. -/
theorem c10_row_label_correspondence_witness :
    ∃ st, fitCT (selectIdx (sampleStudents.map dropG3)
        (train_test_split_idx (some RAND_STATE) 0 TEST_SIZE sampleStudents.length).1) =
          .ok st ∧
      mapE (processedRowOf st)
        (selectIdx sampleStudents
          (train_test_split_idx (some RAND_STATE) 0 TEST_SIZE sampleStudents.length).1) =
        .ok [[(1 : ℚ), 1, 1, 0, 1, 1, 1, 1, 1, 1, 1, 1, 1, 1, 9],
             [(0 : ℚ), 0, 0, 1, 0, 0, 0, 0, 1, 1, 1, 1, 1, 1, 11]] ∧
      mapE (processedRowOf st)
        (selectIdx sampleStudents
          (train_test_split_idx (some RAND_STATE) 0 TEST_SIZE sampleStudents.length).2) =
        .ok [[(-3 : ℚ)/4, (-1 : ℚ)/2, -1, (1 : ℚ)/3, -1, -1, -1, (-1 : ℚ)/2,
              1, 1, 1, 1, 1, 1, 14]] :=
  c10_row_label_correspondence 0 sampleStudents
    [[(1 : ℚ), 1, 1, 0, 1, 1, 1, 1, 1, 1, 1, 1, 1, 1, 9],
     [(0 : ℚ), 0, 0, 1, 0, 0, 0, 0, 1, 1, 1, 1, 1, 1, 11]]
    [[(-3 : ℚ)/4, (-1 : ℚ)/2, -1, (1 : ℚ)/3, -1, -1, -1, (-1 : ℚ)/2,
      1, 1, 1, 1, 1, 1, 14]]
    (by
      have hn : nTestOf TEST_SIZE 3 = 1 := by
        have h : (⌈TEST_SIZE * ((3 : Nat) : ℚ)⌉ : ℤ) = 1 := by
          rw [Int.ceil_eq_iff]
          constructor <;> norm_num [TEST_SIZE]
        unfold nTestOf
        rw [h]
        rfl
      have hperm : shuffledRange RAND_STATE 3 = [0, 1, 2] := by decide
      have hy : mapE (fun r => getNum r label_column) sampleStudents =
          .ok [(14 : ℚ), 9, 11] := by decide
      have hsplit : train_test_split (sampleStudents.map dropG3)
          [(14 : ℚ), 9, 11] TEST_SIZE (some RAND_STATE) 0 =
          ([dropG3 sampleStudent2, dropG3 sampleStudent3],
           [dropG3 sampleStudent1], [9, 11], [14]) := by
        simp only [train_test_split, train_test_split_idx, List.length_map,
          sampleStudents, List.length_cons, List.length_nil, hn, hperm,
          Option.getD]
        decide
      have hfit : fitCT [dropG3 sampleStudent2, dropG3 sampleStudent3] =
          .ok c10State := by decide
      have htr : mapE (transformRow c10State)
          [dropG3 sampleStudent2, dropG3 sampleStudent3] =
          .ok [[(1 : ℚ), 1, 1, 0, 1, 1, 1, 1, 1, 1, 1, 1, 1, 1],
               [(0 : ℚ), 0, 0, 1, 0, 0, 0, 0, 1, 1, 1, 1, 1, 1]] := by
        simp only [mapE, transformRow, c10State, numScaleCell, nomEncodeCell,
          getNum, getStr, scale, ohEncode, dropG3, sampleStudent2,
          sampleStudent3, List.lookup, List.filter, label_column,
          String.reduceBEq, beq_self_eq_true, String.reduceEq]
        norm_num
      have hte : mapE (transformRow c10State) [dropG3 sampleStudent1] =
          .ok [[(-3 : ℚ)/4, (-1 : ℚ)/2, -1, (1 : ℚ)/3, -1, -1, -1, (-1 : ℚ)/2,
                1, 1, 1, 1, 1, 1]] := by
        simp only [mapE, transformRow, c10State, numScaleCell, nomEncodeCell,
          getNum, getStr, scale, ohEncode, dropG3, sampleStudent1, List.lookup,
          List.filter, label_column, String.reduceBEq, beq_self_eq_true,
          String.reduceEq]
        norm_num
      unfold batchPreprocess
      simp only [hy, hsplit, hfit, htr, hte]
      simp [attachLabels])
